import Mathlib

/-!
Shallow embedding of the stem-splitter job orchestration service:
job store and manager (app/jobs.py), processing pipeline (app/main.py),
upload guard, archive builder and engine wrapper (app/service.py), and
the configuration record (app/config.py).  Machine floats in the source
are modelled as rationals (progress) and integers (timestamps, sizes);
Python truthiness of optional fields is modelled explicitly.
-/

namespace StemSplitter

/-- Python truthiness of an optional string parameter:
`None` and the empty string are falsy. -/
def pyStrOptTruthy : Option String → Bool
  | none => false
  | some s => !s.data.isEmpty

/-- Python truthiness of an optional timestamp: `None` and `0.0` are falsy. -/
def pyTimeTruthy : Option Nat → Bool
  | none => false
  | some t => t != 0

/-- Configuration record, from `app/config.py` `Settings`. -/
structure Settings where
  allowedExtensions : List String := [".mp3", ".wav", ".ogg", ".flac", ".m4a"]
  maxFileSizeMb : Nat := 100
  maxFileSizeBytes : Nat := 100 * 1024 * 1024
  rateLimitPerMinute : Nat := 30
  maxConcurrentSeparations : Nat := 3
  uploadDir : String := "temp/uploads"
  outputDir : String := "temp/output"
  deriving DecidableEq

/-- The default settings instance (`settings = Settings()`). -/
def defaultSettings : Settings := {}

/-- Job status enumeration, from `app/jobs.py` `JobStatus`. -/
inductive JobStatus
  | pending
  | processing
  | completed
  | failed
  deriving DecidableEq

/-- A separation job record, from `app/jobs.py` `Job.__init__`. -/
structure Job where
  jobId : String
  filePath : String
  stems : Nat
  status : JobStatus
  createdAt : Nat
  startedAt : Option Nat
  completedAt : Option Nat
  error : Option String
  resultPath : Option String
  progress : Rat
  deriving DecidableEq

/-- A fresh job as built by `Job.__init__`: status pending, progress 0,
no timestamps besides creation, no error, no result path. -/
def Job.new (jobId filePath : String) (stems : Nat) (now : Nat) : Job :=
  { jobId := jobId
    filePath := filePath
    stems := stems
    status := JobStatus.pending
    createdAt := now
    startedAt := none
    completedAt := none
    error := none
    resultPath := none
    progress := 0 }

/-- Keyed record replacement, modelling assignment into the `_jobs` dict
and the per-id job file on disk. -/
def storeInsert (id : String) (j : Job) (l : List (String × Job)) : List (String × Job) :=
  (id, j) :: l.filter (fun p => p.1 ≠ id)

/-- The job manager state, from `app/jobs.py` `JobManager`: the in-memory
dict `_jobs` and the set of persisted per-job records under
`JOBS_STORAGE_DIR` (one serialized record per job id). -/
structure JobManager where
  jobs : List (String × Job)
  disk : List (String × Job)
  deriving DecidableEq

/-- A manager holding no jobs. -/
def emptyManager : JobManager := { jobs := [], disk := [] }

/-- `JobManager.create_job`: allocate the job, put it in memory and persist
it immediately (`_save_job_to_disk`). -/
def createJob (m : JobManager) (jobId filePath : String) (stems : Nat) (now : Nat) :
    JobManager × Job :=
  let job := Job.new jobId filePath stems now
  ({ jobs := storeInsert jobId job m.jobs, disk := storeInsert jobId job m.disk }, job)

/-- Clamp a progress value into [0, 1]: `max(0.0, min(1.0, progress))`. -/
def clampProgress (p : Rat) : Rat := max 0 (min 1 p)

/-- The field updates performed by `JobManager.update_job_status` on a job
that was found, in source order: set status; clamp and assign progress when
given; assign error only when truthy; assign result path only when truthy
(`Path` objects are always truthy, so this is a `None` check); set
`started_at` on first entry into processing, else set `completed_at` and
force progress to 1 on entry into a terminal status. -/
def applyUpdate (job : Job) (status : JobStatus) (progress : Option Rat)
    (error : Option String) (resultPath : Option String) (now : Nat) : Job :=
  let j1 := { job with status := status }
  let j2 := match progress with
    | some p => { j1 with progress := clampProgress p }
    | none => j1
  let j3 := if pyStrOptTruthy error then { j2 with error := error } else j2
  let j4 := match resultPath with
    | some rp => { j3 with resultPath := some rp }
    | none => j3
  if status = JobStatus.processing ∧ ¬ pyTimeTruthy j4.startedAt then
    { j4 with startedAt := some now }
  else if status = JobStatus.completed ∨ status = JobStatus.failed then
    { j4 with completedAt := some now, progress := 1 }
  else j4

/-- `JobManager.update_job_status`: returns false and changes nothing when
the id is unknown; otherwise applies the update and persists the record
(`_save_job_to_disk`). -/
def updateJobStatus (m : JobManager) (id : String) (status : JobStatus)
    (progress : Option Rat) (error : Option String) (resultPath : Option String)
    (now : Nat) : JobManager × Bool :=
  match m.jobs.lookup id with
  | none => (m, false)
  | some job =>
    let j := applyUpdate job status progress error resultPath now
    ({ jobs := storeInsert id j m.jobs, disk := storeInsert id j m.disk }, true)

/-- The retention window, from `JobManager.__init__`: `_cleanup_interval = 3600`. -/
def cleanupInterval : Int := 3600

/-- The sweep condition from `JobManager.cleanup_old_jobs`:
`job.completed_at and (current_time - job.completed_at) > self._cleanup_interval`. -/
def shouldRetire (now : Int) (j : Job) : Bool :=
  pyTimeTruthy j.completedAt && (now - Int.ofNat (j.completedAt.getD 0) > cleanupInterval)

/-- `JobManager.cleanup_old_jobs`: collect the ids of jobs whose
`completed_at` is truthy and older than the retention window, delete each
from the in-memory dict and unlink its per-id record file.  The function
threads the set of other files on storage (result artifacts) through
unchanged: the source unlinks only `JOBS_STORAGE_DIR/{job_id}.json` and
never touches a result path.  Returns the number of retired jobs. -/
def cleanupOldJobs (m : JobManager) (artifacts : List String) (now : Int) :
    JobManager × List String × Nat :=
  let toRemove := (m.jobs.filter (fun p => shouldRetire now p.2)).map Prod.fst
  let m2 : JobManager :=
    { jobs := m.jobs.filter (fun p => ¬ toRemove.contains p.1)
      disk := m.disk.filter (fun p => ¬ toRemove.contains p.1) }
  (m2, artifacts, toRemove.length)

/-- Final component of a slash-separated path, modelling `PurePosixPath.name`. -/
def lastComponent (p : String) : String := (p.splitOn "/").getLastD p

/-- `PurePosixPath.suffix` of a name: the slice from the last dot, provided
that dot is neither the first nor the last character; empty otherwise. -/
def pySuffix (name : String) : String :=
  match name.data.reverse.findIdx? (fun c => c = '.') with
  | none => ""
  | some r =>
    let i := name.data.length - 1 - r
    if 0 < i ∧ i < name.data.length - 1 then String.mk (name.data.drop i) else ""

/-- `PurePosixPath.stem` of a name: the name with its suffix removed. -/
def pyStem (name : String) : String :=
  match name.data.reverse.findIdx? (fun c => c = '.') with
  | none => name
  | some r =>
    let i := name.data.length - 1 - r
    if 0 < i ∧ i < name.data.length - 1 then String.mk (name.data.take i) else name

/-- Outcome of the opaque engine call `separator.separate_to_file`, supplied
as an environment parameter: success (with the expected output folder either
present or absent afterwards), a `ValueError`, or any other exception. -/
inductive EngineOutcome
  | success (outDirExists : Bool)
  | valueErr (msg : String)
  | failure (msg : String)
  deriving DecidableEq

/-- The wrapped message stored on a generic engine failure:
`str(HTTPException(500, detail))` with the fixed detail of `run_separation`. -/
def engineFailureMsg : String :=
  "500: Audio separation failed. Please ensure the file is a valid audio file and try again."

/-- `SpleeterService.run_separation`: validates the stem count, invokes the
engine, wraps a `ValueError` into HTTP 400 with the message appended, wraps
any other engine failure into a fixed HTTP 500 message that does not contain
the engine message, and checks that the output folder exists.  Errors carry
`str(e)` of the raised `HTTPException`, which formats as `"{code}: {detail}"`. -/
def runSeparation (s : Settings) (filePath : String) (stems : Nat)
    (engine : EngineOutcome) : Except String String :=
  if ¬ (stems = 2 ∨ stems = 4 ∨ stems = 5) then
    Except.error ("400: Invalid stems value: " ++ toString stems ++ ". Must be 2, 4, or 5.")
  else
    match engine with
    | EngineOutcome.valueErr m =>
      Except.error ("400: Invalid separation configuration: " ++ m)
    | EngineOutcome.failure _ => Except.error engineFailureMsg
    | EngineOutcome.success outDirExists =>
      if outDirExists then
        Except.ok (s.outputDir ++ "/" ++ pyStem (lastComponent filePath))
      else
        Except.error "500: Separation completed but output files were not found."

/-- Environment of one background pipeline run: what the engine does, whether
`create_zip` raises (`some detail` is the detail of its `HTTPException(500)`),
and whether the produced zip exists with nonzero size afterwards. -/
structure PipelineEnv where
  engine : EngineOutcome
  zipFail : Option String
  zipVerifyOk : Bool
  deriving DecidableEq

/-- `process_separation_job` from `app/main.py`, as the sequence of job-store
states it produces.  Timestamps of the successive transitions are the
parameters `t1 t2 t3 t4`.  The run transitions to processing at 0.1, then 0.3,
invokes the engine; on engine failure it transitions to failed with
`error=str(e)`; on success it transitions to 0.7, builds the zip (failure
again diverts to failed), verifies the zip is present and nonempty (raising
`Exception("Zip file was not created or is empty")` otherwise), and finally
marks the job completed with the zip as result path. -/
def processSeparationJob (m : JobManager) (env : PipelineEnv) (s : Settings)
    (jobId filePath : String) (stems : Nat) (t1 t2 t3 t4 : Nat) : List JobManager :=
  let m1 := (updateJobStatus m jobId JobStatus.processing (some (1/10)) none none t1).1
  let m2 := (updateJobStatus m1 jobId JobStatus.processing (some (3/10)) none none t2).1
  let zipPath := s.outputDir ++ "/" ++ jobId ++ ".zip"
  match runSeparation s filePath stems env.engine with
  | Except.error msg =>
    let mf := (updateJobStatus m2 jobId JobStatus.failed (some 1) (some msg) none t3).1
    [m1, m2, mf]
  | Except.ok _ =>
    let m3 := (updateJobStatus m2 jobId JobStatus.processing (some (7/10)) none none t3).1
    match env.zipFail with
    | some detail =>
      let mf := (updateJobStatus m3 jobId JobStatus.failed (some 1)
        (some ("500: " ++ detail)) none t4).1
      [m1, m2, m3, mf]
    | none =>
      if env.zipVerifyOk then
        let mc := (updateJobStatus m3 jobId JobStatus.completed (some 1) none
          (some zipPath) t4).1
        [m1, m2, m3, mc]
      else
        let mf := (updateJobStatus m3 jobId JobStatus.failed (some 1)
          (some "Zip file was not created or is empty") none t4).1
        [m1, m2, m3, mf]

/-- One full driven run of a job: creation (status pending) followed by the
states of its background pipeline run. -/
def pipelineTrace (env : PipelineEnv) (s : Settings) (jobId filePath : String)
    (stems : Nat) (t0 t1 t2 t3 t4 : Nat) : List JobManager :=
  let m0 := (createJob emptyManager jobId filePath stems t0).1
  m0 :: processSeparationJob m0 env s jobId filePath stems t1 t2 t3 t4

/-- The job record at the end of a run. -/
def finalJobOfTrace (tr : List JobManager) (jobId : String) : Option Job :=
  tr.getLast?.bind (fun m => m.jobs.lookup jobId)

/-- A status is terminal when it is completed or failed. -/
def isTerminal (st : JobStatus) : Bool :=
  st = JobStatus.completed || st = JobStatus.failed

/-- Presence of the error field as the API observes it (`if self.error:`
in `Job.to_dict`): set and nonempty. -/
def errPresent (j : Job) : Bool := pyStrOptTruthy j.error

/-- Presence of the result path field (`self.result_path` is a `Path` or
`None`, so presence is a `None` check). -/
def resPresent (j : Job) : Bool := j.resultPath.isSome

/-- The terminal-state shape invariant: a terminal job carries exactly one
of an error and a result path; a non-terminal job carries neither. -/
def jobInv (j : Job) : Prop :=
  if isTerminal j.status then
    (errPresent j = true ∧ resPresent j = false) ∨
    (errPresent j = false ∧ resPresent j = true)
  else errPresent j = false ∧ resPresent j = false

/-- The streaming chunk size of `save_upload`: 64 KB. -/
def chunkSize : Nat := 64 * 1024

/-- Outcome of `SpleeterService.save_upload` on a stream. -/
inductive UploadOutcome
  | saved (total : Nat)
  | rejected (maxMb : Nat) (receivedBytes : Nat)
  | emptyRejected
  | oversizeRejected (maxMb : Nat) (fileSize : Nat)
  deriving DecidableEq

/-- The write loop of `save_upload`: read a chunk, stop at EOF (an empty
chunk), add its length to the running count, and the moment the count
exceeds the configured maximum delete the destination and raise HTTP 413
reporting the configured maximum (in MB) and the bytes received; otherwise
append the chunk to the destination.  The first component is the byte count
of the destination file, `none` when it was deleted. -/
def saveUploadLoop (s : Settings) (chunks : List Nat) (written fileB : Nat) :
    Option Nat × UploadOutcome :=
  match chunks with
  | [] => (some fileB, UploadOutcome.saved fileB)
  | c :: rest =>
    if c = 0 then (some fileB, UploadOutcome.saved fileB)
    else
      let written2 := written + c
      if written2 > s.maxFileSizeBytes then
        (none, UploadOutcome.rejected s.maxFileSizeMb written2)
      else saveUploadLoop s rest written2 (fileB + c)

/-- `SpleeterService.save_upload`: stream the chunks, then re-validate the
saved file — an empty file is deleted and rejected, an oversized file is
deleted and rejected. -/
def saveUpload (s : Settings) (chunks : List Nat) : Option Nat × UploadOutcome :=
  match saveUploadLoop s chunks 0 0 with
  | (file, UploadOutcome.saved total) =>
    if total = 0 then (none, UploadOutcome.emptyRejected)
    else if total > s.maxFileSizeBytes then
      (none, UploadOutcome.oversizeRejected s.maxFileSizeMb total)
    else (file, UploadOutcome.saved total)
  | r => r

/-- The upload phase of the `/separate` handler: `save_upload` runs before
`job_manager.create_job`, so a job is created only when the save returned
normally.  The last component records whether a job was created. -/
def separateUploadPhase (s : Settings) (chunks : List Nat) :
    Option Nat × UploadOutcome × Bool :=
  match saveUpload s chunks with
  | (f, UploadOutcome.saved total) => (f, UploadOutcome.saved total, true)
  | (f, o) => (f, o, false)

/-- The set of rejected filename characters in `validate_file`:
`{"<", ">", ":", quote, "|", "?", "*", null}`. -/
def invalidFilenameChars : List Char :=
  ['<', '>', ':', '"', '|', '?', '*', Char.ofNat 0]

/-- The rejection reasons of `SpleeterService.validate_file`, in source order. -/
inductive FileCheckError
  | missingFilename
  | filenameTooLong
  | invalidChars
  | noExtension
  | badExtension (ext : String)
  | emptyFile
  | tooLarge
  deriving DecidableEq

/-- `SpleeterService.validate_file`: reject a missing or empty filename, a
filename longer than 255 characters, a filename holding any rejected
character; then compute the lowercased suffix of the final path component
and reject a missing or disallowed extension; finally, when a declared size
is available, reject a non-positive or over-limit size.  Returns the
extension on success. -/
def validateFile (s : Settings) (filename : Option String) (size : Option Int) :
    Except FileCheckError String :=
  match filename with
  | none => Except.error FileCheckError.missingFilename
  | some fname =>
    if fname.data.isEmpty then Except.error FileCheckError.missingFilename
    else if fname.length > 255 then Except.error FileCheckError.filenameTooLong
    else if fname.data.any (fun c => invalidFilenameChars.contains c) then
      Except.error FileCheckError.invalidChars
    else
      let ext := (pySuffix (lastComponent fname)).toLower
      if ext.data.isEmpty then Except.error FileCheckError.noExtension
      else if ¬ s.allowedExtensions.contains ext then
        Except.error (FileCheckError.badExtension ext)
      else
        match size with
        | some sz =>
          if sz ≤ 0 then Except.error FileCheckError.emptyFile
          else if sz > Int.ofNat s.maxFileSizeBytes then Except.error FileCheckError.tooLarge
          else Except.ok ext
        | none => Except.ok ext

/-- The 202 message of the result endpoint for a job that is not completed. -/
def stillProcessingMsg : String := "Job is still processing. Please check status endpoint."

/-- Responses of `GET /jobs/{job_id}/result`. -/
inductive ResultResponse
  | notFound (jobId : String)
  | notReady (jobId : String) (currentStatus : JobStatus) (message : String)
  | resultMissing
  | fileOk (path : String) (size : Nat)
  deriving DecidableEq

/-- `get_job_result` from `app/main.py`: 404 for an unknown id; a 202
not-ready body carrying the current status for ANY status other than
completed (including failed); HTTP 500 when completed but the result path is
unset or the artifact no longer exists; otherwise the archive file response.
`fs` lists the files present on storage with their sizes. -/
def getJobResult (m : JobManager) (fs : List (String × Nat)) (jobId : String) :
    ResultResponse :=
  match m.jobs.lookup jobId with
  | none => ResultResponse.notFound jobId
  | some job =>
    if job.status ≠ JobStatus.completed then
      ResultResponse.notReady jobId job.status stillProcessingMsg
    else
      match job.resultPath with
      | none => ResultResponse.resultMissing
      | some rp =>
        match fs.lookup rp with
        | none => ResultResponse.resultMissing
        | some size => ResultResponse.fileOk rp size

/-- One directory entry seen by the walk in `create_zip`: its path
components relative to the walked source root, whether it still exists,
whether it is a regular file, and its byte size. -/
structure WalkEntry where
  relPath : List String
  stillExists : Bool
  isFile : Bool
  size : Nat
  deriving DecidableEq

/-- `str()` of a relative path given as components: the components joined
by the slash separator, as a character list. -/
def joinPathChars : List String → List Char
  | [] => []
  | [c] => c.data
  | c :: rest => c.data ++ '/' :: joinPathChars rest

/-- The arcname computation of `create_zip`: the path relative to the source
root, collapsed to the bare filename when its string form contains `".."`
as a substring (zip-slip defense). -/
def arcnameOf (comps : List String) : List String :=
  if "..".data <:+: joinPathChars comps then [comps.getLastD ""] else comps

/-- The aggregate size cap of `create_zip`: 500 MB. -/
def maxZipSize : Nat := 500 * 1024 * 1024

/-- The collection loop of `create_zip`: walk the entries once, skipping
entries that vanished or are not regular files, accumulate the total size
and abort with HTTP 500 when it exceeds the cap, and record each kept file
with its computed arcname. -/
def collectZipEntries (entries : List WalkEntry) (total : Nat) :
    Except String (List (List String)) :=
  match entries with
  | [] => Except.ok []
  | e :: rest =>
    if ¬ e.stillExists then collectZipEntries rest total
    else if ¬ e.isFile then collectZipEntries rest total
    else
      let total2 := total + e.size
      if total2 > maxZipSize then
        Except.error "500: Output zip file would be too large."
      else
        match collectZipEntries rest total2 with
        | Except.error msg => Except.error msg
        | Except.ok l => Except.ok (arcnameOf e.relPath :: l)

/-- The write phase of `create_zip` under no per-entry write failures: every
collected entry is written, and a run that wrote zero entries deletes the
archive and raises HTTP 500.  Returns the archive entry names. -/
def createZipArchive (entries : List WalkEntry) : Except String (List (List String)) :=
  match collectZipEntries entries 0 with
  | Except.error msg => Except.error msg
  | Except.ok l =>
    if l.isEmpty then Except.error "500: No files were added to the zip archive."
    else Except.ok l

/-- The observable operations of one background pipeline task, including the
synchronization alphabet a concurrency limiter would use.  The acquire and
release operations exist in the alphabet so that their absence from the
actual step list is expressible. -/
inductive PStep
  | setStatus (st : JobStatus) (progressTenths : Nat)
  | acquireSlot
  | releaseSlot
  | engineEnter
  | engineExit
  | buildZip
  | finishJob
  deriving DecidableEq

/-- The step sequence of `process_separation_job` on its success path, as
written: two status updates, then directly the engine call inside
`run_in_threadpool` — no slot acquisition guards the engine call, and
`settings.max_concurrent_separations` is read nowhere in the source. -/
def pipelineSteps : List PStep :=
  [PStep.setStatus JobStatus.processing 1,
   PStep.setStatus JobStatus.processing 3,
   PStep.engineEnter,
   PStep.engineExit,
   PStep.setStatus JobStatus.processing 7,
   PStep.buildZip,
   PStep.finishJob]

/-- The steps one task has performed in a schedule. -/
def taskSteps (sched : List (Nat × PStep)) (t : Nat) : List PStep :=
  (sched.filter (fun p => p.1 = t)).map Prod.snd

/-- A schedule is a valid interleaving of `n` pipeline tasks when every
task has performed some forward portion of `pipelineSteps` in order.  Since
the source has no limiter, no synchronization constrains interleavings. -/
def validSchedule (sched : List (Nat × PStep)) (n : Nat) : Bool :=
  (List.range n).all (fun t => (taskSteps sched t).isPrefixOf pipelineSteps)

/-- How many tasks are inside `run_separation` at the end of a schedule. -/
def engineOccupancy (sched : List (Nat × PStep)) : Nat :=
  (sched.filter (fun p => p.2 = PStep.engineEnter)).length -
  (sched.filter (fun p => p.2 = PStep.engineExit)).length

/-- A schedule in which four dispatched jobs all reach the engine call
before any of them returns. -/
def fourInsideSchedule : List (Nat × PStep) :=
  (List.range 4).flatMap (fun t =>
    [(t, PStep.setStatus JobStatus.processing 1),
     (t, PStep.setStatus JobStatus.processing 3),
     (t, PStep.engineEnter)])

/-! Helper lemmas about the store and the update operation. -/

theorem lookup_storeInsert_self (id : String) (j : Job) (l : List (String × Job)) :
    (storeInsert id j l).lookup id = some j := by
  simp [storeInsert, List.lookup]

theorem lookup_filter_none (l : List (String × Job)) (f : String × Job → Bool)
    (id : String) (h : ∀ p ∈ l, p.1 = id → f p = false) :
    (l.filter f).lookup id = none := by
  rw [List.lookup_eq_none_iff]
  intro p hp
  obtain ⟨hmem, hf⟩ := List.mem_filter.mp hp
  by_contra hne
  rw [bne_iff_ne] at hne
  push_neg at hne
  rw [h p hmem hne.symm] at hf
  exact Bool.false_ne_true hf

theorem updateJobStatus_found (m : JobManager) (id : String) (job : Job)
    (hjob : m.jobs.lookup id = some job) (st : JobStatus) (p : Option Rat)
    (e rp : Option String) (now : Nat) :
    updateJobStatus m id st p e rp now =
      ({ jobs := storeInsert id (applyUpdate job st p e rp now) m.jobs,
         disk := storeInsert id (applyUpdate job st p e rp now) m.disk }, true) := by
  simp [updateJobStatus, hjob]

theorem applyUpdate_status (job : Job) (st : JobStatus) (p : Option Rat)
    (e rp : Option String) (now : Nat) : (applyUpdate job st p e rp now).status = st := by
  cases p <;> cases rp <;> simp only [applyUpdate] <;> split <;> split_ifs <;> rfl

theorem applyUpdate_terminal (job : Job) (st : JobStatus) (p : Option Rat)
    (e rp : Option String) (now : Nat)
    (h : st = JobStatus.completed ∨ st = JobStatus.failed) :
    (applyUpdate job st p e rp now).completedAt = some now ∧
    (applyUpdate job st p e rp now).progress = 1 := by
  rcases h with h | h <;> subst h <;> cases p <;> cases rp <;>
    simp only [applyUpdate] <;> split <;> simp_all

theorem applyUpdate_progress_clamp (job : Job) (st : JobStatus) (v : Rat)
    (e rp : Option String) (now : Nat)
    (h : ¬ (st = JobStatus.completed ∨ st = JobStatus.failed)) :
    (applyUpdate job st (some v) e rp now).progress = clampProgress v := by
  cases rp <;> simp only [applyUpdate] <;> split <;> split_ifs <;> simp_all

theorem clampProgress_bounds (v : Rat) : 0 ≤ clampProgress v ∧ clampProgress v ≤ 1 := by
  unfold clampProgress
  constructor
  · exact le_max_left 0 _
  · exact max_le (by norm_num) (min_le_left 1 v)

theorem applyUpdate_startedAt_first (job : Job) (p : Option Rat)
    (e rp : Option String) (now : Nat) (h : pyTimeTruthy job.startedAt = false) :
    (applyUpdate job JobStatus.processing p e rp now).startedAt = some now := by
  cases p <;> cases rp <;> simp only [applyUpdate] <;> split <;> simp_all

theorem applyUpdate_startedAt_keep (job : Job) (st : JobStatus) (p : Option Rat)
    (e rp : Option String) (now : Nat) (h : pyTimeTruthy job.startedAt = true) :
    (applyUpdate job st p e rp now).startedAt = job.startedAt := by
  cases p <;> cases rp <;> simp only [applyUpdate] <;> split <;> split_ifs <;> simp_all

theorem applyUpdate_startedAt_other (job : Job) (st : JobStatus) (p : Option Rat)
    (e rp : Option String) (now : Nat) (h : st ≠ JobStatus.processing) :
    (applyUpdate job st p e rp now).startedAt = job.startedAt := by
  cases p <;> cases rp <;> simp only [applyUpdate] <;> split <;> split_ifs <;> simp_all

/-- C4: for a known id, `update_job_status` reports success, stores and
persists the identical updated record, clamps a given progress value into
[0, 1], forces progress to exactly 1 and stamps `completedAt` on entry into
a terminal status, sets `startedAt` exactly on the first transition into
processing and never again; for an unknown id it reports not-found and
leaves the manager unchanged. -/
theorem updateJobStatus_contract (m : JobManager) (id : String) (st : JobStatus)
    (p : Option Rat) (e rp : Option String) (now : Nat) :
    (m.jobs.lookup id = none → updateJobStatus m id st p e rp now = (m, false)) ∧
    (∀ job, m.jobs.lookup id = some job →
      (updateJobStatus m id st p e rp now).2 = true ∧
      ∃ j, (updateJobStatus m id st p e rp now).1.jobs.lookup id = some j ∧
        (updateJobStatus m id st p e rp now).1.disk.lookup id = some j ∧
        j = applyUpdate job st p e rp now ∧
        (∀ v, p = some v → 0 ≤ j.progress ∧ j.progress ≤ 1) ∧
        (∀ v, p = some v → ¬ (st = JobStatus.completed ∨ st = JobStatus.failed) →
          j.progress = clampProgress v) ∧
        ((st = JobStatus.completed ∨ st = JobStatus.failed) →
          j.completedAt = some now ∧ j.progress = 1) ∧
        (st = JobStatus.processing → pyTimeTruthy job.startedAt = false →
          j.startedAt = some now) ∧
        (pyTimeTruthy job.startedAt = true → j.startedAt = job.startedAt) ∧
        (st ≠ JobStatus.processing → j.startedAt = job.startedAt)) := by
  constructor
  · intro h
    simp [updateJobStatus, h]
  · intro job hjob
    rw [updateJobStatus_found m id job hjob st p e rp now]
    refine ⟨rfl, applyUpdate job st p e rp now,
      lookup_storeInsert_self _ _ _, lookup_storeInsert_self _ _ _, rfl, ?_, ?_, ?_, ?_, ?_, ?_⟩
    · intro v hv
      subst hv
      by_cases hterm : st = JobStatus.completed ∨ st = JobStatus.failed
      · rw [(applyUpdate_terminal job st (some v) e rp now hterm).2]
        norm_num
      · rw [applyUpdate_progress_clamp job st v e rp now hterm]
        exact clampProgress_bounds v
    · intro v hv hterm
      subst hv
      exact applyUpdate_progress_clamp job st v e rp now hterm
    · intro hterm
      exact applyUpdate_terminal job st p e rp now hterm
    · intro hst hstart
      subst hst
      exact applyUpdate_startedAt_first job p e rp now hstart
    · intro h
      exact applyUpdate_startedAt_keep job st p e rp now h
    · intro h
      exact applyUpdate_startedAt_other job st p e rp now h

theorem applyUpdate_error_not_truthy (job : Job) (st : JobStatus) (p : Option Rat)
    (e rp : Option String) (now : Nat) (h : pyStrOptTruthy e = false) :
    (applyUpdate job st p e rp now).error = job.error := by
  cases p <;> cases rp <;> simp only [applyUpdate, h] <;> split_ifs <;> simp_all

theorem applyUpdate_error_truthy (job : Job) (st : JobStatus) (p : Option Rat)
    (e rp : Option String) (now : Nat) (h : pyStrOptTruthy e = true) :
    (applyUpdate job st p e rp now).error = e := by
  cases p <;> cases rp <;> simp only [applyUpdate, h] <;> split_ifs <;> simp_all

theorem applyUpdate_result_some (job : Job) (st : JobStatus) (p : Option Rat)
    (e : Option String) (r : String) (now : Nat) :
    (applyUpdate job st p e (some r) now).resultPath = some r := by
  cases p <;> simp only [applyUpdate] <;> split_ifs <;> simp_all

theorem applyUpdate_result_none (job : Job) (st : JobStatus) (p : Option Rat)
    (e : Option String) (now : Nat) :
    (applyUpdate job st p e none now).resultPath = job.resultPath := by
  cases p <;> simp only [applyUpdate] <;> split_ifs <;> simp_all

theorem pyStrOptTruthy_ne_none (e : Option String) (h : pyStrOptTruthy e = true) :
    e ≠ none := by
  cases e <;> simp_all [pyStrOptTruthy]

/-- C10: the transition operation assigns the error and result-path fields
only from truthy arguments — a `None` or empty-string error and a `None`
result path are ignored, a previously set field is never cleared — so a
transition into failed carrying an empty error message leaves the error
field absent. -/
theorem updateJobStatus_truthiness (m : JobManager) (id : String) (st : JobStatus)
    (p : Option Rat) (e rp : Option String) (now : Nat) (job : Job)
    (hjob : m.jobs.lookup id = some job) :
    ∃ j, (updateJobStatus m id st p e rp now).1.jobs.lookup id = some j ∧
      j = applyUpdate job st p e rp now ∧
      ((e = none ∨ e = some "") → j.error = job.error) ∧
      (rp = none → j.resultPath = job.resultPath) ∧
      (job.error ≠ none → j.error ≠ none) ∧
      (job.resultPath ≠ none → j.resultPath ≠ none) ∧
      (st = JobStatus.failed → e = some "" → job.error = none →
        j.status = JobStatus.failed ∧ j.error = none) := by
  rw [updateJobStatus_found m id job hjob st p e rp now]
  refine ⟨applyUpdate job st p e rp now, lookup_storeInsert_self _ _ _, rfl, ?_, ?_, ?_, ?_, ?_⟩
  · rintro (he | he) <;> subst he <;>
      exact applyUpdate_error_not_truthy job st p _ rp now (by decide)
  · rintro rfl
    exact applyUpdate_result_none job st p e now
  · intro hold
    by_cases he : pyStrOptTruthy e = true
    · rw [applyUpdate_error_truthy job st p e rp now he]
      exact pyStrOptTruthy_ne_none e he
    · rw [applyUpdate_error_not_truthy job st p e rp now (by simpa using he)]
      exact hold
  · intro hold
    cases rp with
    | none => rw [applyUpdate_result_none job st p e now]; exact hold
    | some r => rw [applyUpdate_result_some job st p e r now]; exact Option.some_ne_none r
  · rintro rfl rfl holdnone
    refine ⟨applyUpdate_status job JobStatus.failed p _ rp now, ?_⟩
    rw [applyUpdate_error_not_truthy job JobStatus.failed p _ rp now (by decide)]
    exact holdnone

/-- C9: for a known job of any status other than completed — including the
terminal status failed — the result endpoint answers with the 202 not-ready
body carrying the current status and the still-processing message; the
archive response and the missing-artifact error arise only for a completed
job. -/
theorem getJobResult_gate (m : JobManager) (fs : List (String × Nat)) (jobId : String)
    (job : Job) (hjob : m.jobs.lookup jobId = some job) :
    (job.status ≠ JobStatus.completed →
      getJobResult m fs jobId = ResultResponse.notReady jobId job.status stillProcessingMsg) ∧
    (∀ p sz, getJobResult m fs jobId = ResultResponse.fileOk p sz →
      job.status = JobStatus.completed) ∧
    (getJobResult m fs jobId = ResultResponse.resultMissing →
      job.status = JobStatus.completed) := by
  refine ⟨?_, ?_, ?_⟩
  · intro hne
    simp [getJobResult, hjob, hne]
  · intro p sz h
    by_contra hne
    simp [getJobResult, hjob, hne] at h
  · intro h
    by_contra hne
    simp [getJobResult, hjob, hne] at h

theorem string_empty_iff (f : String) : f = "" ↔ f.data = [] := by
  rw [String.ext_iff]

/-- C8: the upload validator rejects an inbound file on its filename exactly
when the filename is absent (or empty), longer than 255 characters, or
holding one of the rejected path characters or the null character; in every
other case validation proceeds past the filename checks. -/
theorem validateFile_filename_checks (s : Settings) (filename : Option String)
    (size : Option Int) :
    (validateFile s filename size = Except.error FileCheckError.missingFilename ∨
     validateFile s filename size = Except.error FileCheckError.filenameTooLong ∨
     validateFile s filename size = Except.error FileCheckError.invalidChars)
    ↔ (filename = none ∨ ∃ f, filename = some f ∧
        (f = "" ∨ 255 < f.length ∨ ∃ c ∈ f.data, c ∈ invalidFilenameChars)) := by
  cases filename with
  | none => simp [validateFile]
  | some f =>
    simp only [validateFile, Option.some.injEq]
    by_cases h1 : f.data.isEmpty
    · rw [if_pos h1]
      constructor
      · intro _
        exact Or.inr ⟨f, rfl, Or.inl ((string_empty_iff f).mpr (by simpa using h1))⟩
      · intro _
        exact Or.inl rfl
    · rw [if_neg h1]
      by_cases h2 : f.length > 255
      · rw [if_pos h2]
        constructor
        · intro _
          exact Or.inr ⟨f, rfl, Or.inr (Or.inl h2)⟩
        · intro _
          exact Or.inr (Or.inl rfl)
      · rw [if_neg h2]
        by_cases h3 : f.data.any (fun c => invalidFilenameChars.contains c)
        · rw [if_pos h3]
          constructor
          · intro _
            obtain ⟨c, hc, hcmem⟩ := List.any_eq_true.mp h3
            exact Or.inr ⟨f, rfl, Or.inr (Or.inr ⟨c, hc, by simpa using hcmem⟩)⟩
          · intro _
            exact Or.inr (Or.inr rfl)
        · rw [if_neg h3]
          constructor
          · intro h
            exfalso
            rcases h with h | h | h <;> cases size <;> (repeat split at h) <;> simp_all <;>
              (repeat split at h) <;> simp_all <;> (repeat split at h) <;> simp_all
          · rintro (h | ⟨g, hg, h⟩)
            · exact absurd h (by simp)
            subst hg
            exfalso
            rcases h with h | h | ⟨c, hc, hcmem⟩
            · exact absurd ((string_empty_iff f).mp h) (by simpa using h1)
            · exact absurd h h2
            · exact absurd (List.any_eq_true.mpr ⟨c, hc, by simpa using hcmem⟩) h3

theorem saveUploadLoop_over (s : Settings) (chunks : List Nat) (written fileB : Nat)
    (hc : ∀ c ∈ chunks, 0 < c ∧ c ≤ chunkSize)
    (hover : s.maxFileSizeBytes < written + chunks.sum)
    (hw : written ≤ s.maxFileSizeBytes) :
    ∃ w, saveUploadLoop s chunks written fileB =
        (none, UploadOutcome.rejected s.maxFileSizeMb w) ∧
      s.maxFileSizeBytes < w ∧ w ≤ s.maxFileSizeBytes + chunkSize := by
  induction chunks generalizing written fileB with
  | nil =>
    simp only [List.sum_nil, Nat.add_zero] at hover
    omega
  | cons c rest ih =>
    obtain ⟨hc0, hcs⟩ := hc c (by simp)
    simp only [saveUploadLoop]
    rw [if_neg (by omega)]
    by_cases hgt : written + c > s.maxFileSizeBytes
    · rw [if_pos hgt]
      exact ⟨written + c, rfl, hgt, by omega⟩
    · rw [if_neg hgt]
      have hover2 : s.maxFileSizeBytes < (written + c) + rest.sum := by
        simp only [List.sum_cons] at hover
        omega
      exact ih (written + c) (fileB + c)
        (fun x hx => hc x (List.mem_cons_of_mem c hx)) hover2 (by omega)

/-- C6: whenever the total size of the streamed chunks exceeds the
configured maximum, the upload phase aborts the moment the running count
first passes the limit (so within one chunk of it), the incomplete
destination file is deleted, no job is created, and the rejection carries
the configured maximum and the bytes received. -/
theorem separate_oversize_upload (s : Settings) (chunks : List Nat)
    (hc : ∀ c ∈ chunks, 0 < c ∧ c ≤ chunkSize)
    (hover : s.maxFileSizeBytes < chunks.sum) :
    ∃ w, separateUploadPhase s chunks =
        (none, UploadOutcome.rejected s.maxFileSizeMb w, false) ∧
      s.maxFileSizeBytes < w ∧ w ≤ s.maxFileSizeBytes + chunkSize := by
  obtain ⟨w, hloop, h1, h2⟩ :=
    saveUploadLoop_over s chunks 0 0 hc (by simpa using hover) (Nat.zero_le _)
  refine ⟨w, ?_, h1, h2⟩
  simp [separateUploadPhase, saveUpload, hloop]

/-- A settings record with a tiny configured maximum, for concrete runs. -/
def tinySettings : Settings := { defaultSettings with maxFileSizeBytes := 10 }

/-- Witness for the oversized-upload theorem at a concrete stream. -/
theorem separate_oversize_upload_witness :
    (∀ c ∈ [4, 4, 4], 0 < c ∧ c ≤ chunkSize) ∧
    tinySettings.maxFileSizeBytes < [4, 4, 4].sum ∧
    ∃ w, separateUploadPhase tinySettings [4, 4, 4] =
        (none, UploadOutcome.rejected tinySettings.maxFileSizeMb w, false) ∧
      tinySettings.maxFileSizeBytes < w ∧
      w ≤ tinySettings.maxFileSizeBytes + chunkSize :=
  ⟨by decide, by decide, separate_oversize_upload tinySettings [4, 4, 4] (by decide) (by decide)⟩

theorem getLastD_mem (l : List String) (d : String) (h : l ≠ []) : l.getLastD d ∈ l := by
  induction l with
  | nil => exact absurd rfl h
  | cons a t ih =>
    cases t with
    | nil => simp
    | cons b t2 =>
      rw [List.getLastD_cons]
      exact List.mem_cons_of_mem a (ih (by simp))

theorem mem_infix_joinPathChars (comps : List String) (c : String) (hc : c ∈ comps) :
    c.data <:+: joinPathChars comps := by
  induction comps with
  | nil => exact absurd hc (List.not_mem_nil c)
  | cons a t ih =>
    cases t with
    | nil =>
      rw [List.mem_singleton] at hc
      subst hc
      exact List.infix_refl c.data
    | cons b t2 =>
      rcases List.mem_cons.mp hc with rfl | hmem
      · exact (List.prefix_append c.data ('/' :: joinPathChars (b :: t2))).isInfix
      · refine (ih hmem).trans ?_
        show joinPathChars (b :: t2) <:+: a.data ++ '/' :: joinPathChars (b :: t2)
        rw [show a.data ++ '/' :: joinPathChars (b :: t2) =
          (a.data ++ ['/']) ++ joinPathChars (b :: t2) by simp]
        exact (List.suffix_append (a.data ++ ['/']) (joinPathChars (b :: t2))).isInfix

theorem arcnameOf_collapse (comps : List String) (h : ".." ∈ comps) :
    arcnameOf comps = [comps.getLastD ""] := by
  unfold arcnameOf
  rw [if_pos (mem_infix_joinPathChars comps ".." h)]

theorem collectZipEntries_complete (entries : List WalkEntry) (total : Nat)
    (hfiles : ∀ e ∈ entries, e.stillExists = true ∧ e.isFile = true)
    (hsize : total + (entries.map WalkEntry.size).sum ≤ maxZipSize) :
    ∃ l, collectZipEntries entries total = Except.ok l ∧
      l.length = entries.length ∧
      ∀ arc ∈ l, ∃ e ∈ entries, arc = arcnameOf e.relPath := by
  induction entries generalizing total with
  | nil => exact ⟨[], rfl, rfl, by simp⟩
  | cons e rest ih =>
    obtain ⟨hex, hfi⟩ := hfiles e (by simp)
    simp only [List.map_cons, List.sum_cons] at hsize
    obtain ⟨l, hl, hlen, harc⟩ :=
      ih (total + e.size) (fun x hx => hfiles x (by simp [hx])) (by omega)
    refine ⟨arcnameOf e.relPath :: l, ?_, by simp [hlen], ?_⟩
    · simp only [collectZipEntries, hex, hfi]
      rw [if_neg (by simp), if_neg (by simp), if_neg (by omega), hl]
    · intro arc harcmem
      rcases List.mem_cons.mp harcmem with rfl | hmem
      · exact ⟨e, by simp, rfl⟩
      · obtain ⟨e2, he2, harc2⟩ := harc arc hmem
        exact ⟨e2, by simp [he2], harc2⟩

/-- C7: on a walk of existing regular files none of whose path components is
a parent-traversal segment, and whose total size fits the aggregate cap, the
archive build succeeds with exactly one entry per file and no entry name
holds a parent-traversal segment; any relative path that does contain a
parent-traversal component would have its entry name collapsed to the bare
filename. -/
theorem createZipArchive_safe (entries : List WalkEntry)
    (hne : entries ≠ [])
    (hfiles : ∀ e ∈ entries, e.stillExists = true ∧ e.isFile = true)
    (hnames : ∀ e ∈ entries, e.relPath ≠ [] ∧ ".." ∉ e.relPath)
    (hsize : (entries.map WalkEntry.size).sum ≤ maxZipSize) :
    ∃ l, createZipArchive entries = Except.ok l ∧
      l.length = entries.length ∧
      (∀ arc ∈ l, ".." ∉ arc) ∧
      (∀ comps : List String, ".." ∈ comps → arcnameOf comps = [comps.getLastD ""]) := by
  obtain ⟨l, hl, hlen, harc⟩ :=
    collectZipEntries_complete entries 0 hfiles (by simpa using hsize)
  have hlne : ¬ l.isEmpty := by
    cases entries with
    | nil => exact absurd rfl hne
    | cons a t =>
      cases l with
      | nil => simp at hlen
      | cons x y => simp
  refine ⟨l, ?_, hlen, ?_, arcnameOf_collapse⟩
  · simp only [createZipArchive, hl]
    rw [if_neg hlne]
  · intro arc hmem
    obtain ⟨e, hemem, rfl⟩ := harc arc hmem
    obtain ⟨hrne, hrdd⟩ := hnames e hemem
    unfold arcnameOf
    split_ifs with hinf
    · intro hdd
      rw [List.mem_singleton] at hdd
      exact hrdd (hdd ▸ getLastD_mem e.relPath "" hrne)
    · exact hrdd

/-- Witness for the archive-safety theorem at a concrete directory. -/
theorem createZipArchive_safe_witness :
    (([⟨["vocals.wav"], true, true, 5⟩, ⟨["sub", "drums.wav"], true, true, 6⟩] :
        List WalkEntry) ≠ []) ∧
    ∃ l, createZipArchive
        [⟨["vocals.wav"], true, true, 5⟩, ⟨["sub", "drums.wav"], true, true, 6⟩] =
        Except.ok l ∧
      l.length = 2 ∧
      (∀ arc ∈ l, ".." ∉ arc) ∧
      (∀ comps : List String, ".." ∈ comps → arcnameOf comps = [comps.getLastD ""]) :=
  ⟨by decide,
   createZipArchive_safe _ (by decide) (by decide) (by decide) (by decide)⟩

theorem keys_nodup_inj (l : List (String × Job)) (hnd : (l.map Prod.fst).Nodup)
    (p q : String × Job) (hp : p ∈ l) (hq : q ∈ l) (h : p.1 = q.1) : p = q := by
  induction l with
  | nil => exact absurd hp (List.not_mem_nil p)
  | cons a t ih =>
    simp only [List.map_cons, List.nodup_cons] at hnd
    obtain ⟨hna, hnt⟩ := hnd
    rcases List.mem_cons.mp hp with rfl | hpt <;> rcases List.mem_cons.mp hq with rfl | hqt
    · rfl
    · exact absurd (by rw [h]; exact List.mem_map_of_mem Prod.fst hqt) hna
    · exact absurd (by rw [← h]; exact List.mem_map_of_mem Prod.fst hpt) hna
    · exact ih hnt hpt hqt

/-- A completed job whose terminal timestamp lies far behind the sweep time
and whose result artifact is on storage. -/
def staleJob : Job :=
  { jobId := "j"
    filePath := "up/f.mp3"
    stems := 2
    status := JobStatus.completed
    createdAt := 1
    startedAt := some 1
    completedAt := some 2
    error := none
    resultPath := some "out/j.zip"
    progress := 1 }

/-- A manager holding only the stale completed job. -/
def staleManager : JobManager :=
  { jobs := [("j", staleJob)], disk := [("j", staleJob)] }

/-- C2 counterexample: sweeping at time 7200 retires the stale job — it
leaves both the in-memory store and the persisted records — yet its result
artifact is still on storage afterwards, so the sweep does not delete the
result artifact as claimed. -/
theorem cleanupOldJobs_keeps_artifact :
    shouldRetire 7200 staleJob = true ∧
    (cleanupOldJobs staleManager ["out/j.zip"] 7200).1.jobs.lookup "j" = none ∧
    (cleanupOldJobs staleManager ["out/j.zip"] 7200).1.disk.lookup "j" = none ∧
    (cleanupOldJobs staleManager ["out/j.zip"] 7200).2.1 = ["out/j.zip"] ∧
    staleJob.resultPath = some "out/j.zip" := by
  refine ⟨by decide, ?_, ?_, by decide, by decide⟩ <;> decide

/-- C2 (amended): a sweep retires a job exactly when its terminal timestamp
is set and older than the retention window; retiring removes the job from
the in-memory store and deletes its persisted record, but the result
artifact is NOT deleted by the sweep (artifact removal is left to the
delayed cleanup of the pipeline); jobs younger than the window and
non-terminal jobs of any age are left in place. -/
theorem cleanupOldJobs_amended (m : JobManager) (artifacts : List String) (now : Int)
    (hnd : (m.jobs.map Prod.fst).Nodup)
    (hterm : ∀ p ∈ m.jobs, isTerminal p.2.status = false → p.2.completedAt = none) :
    (∀ p ∈ m.jobs, shouldRetire now p.2 = true →
      (cleanupOldJobs m artifacts now).1.jobs.lookup p.1 = none ∧
      (cleanupOldJobs m artifacts now).1.disk.lookup p.1 = none) ∧
    (∀ p ∈ m.jobs, shouldRetire now p.2 = false →
      p ∈ (cleanupOldJobs m artifacts now).1.jobs) ∧
    (∀ p ∈ m.jobs, isTerminal p.2.status = false →
      p ∈ (cleanupOldJobs m artifacts now).1.jobs) ∧
    (cleanupOldJobs m artifacts now).2.1 = artifacts := by
  have hkept : ∀ p ∈ m.jobs, shouldRetire now p.2 = false →
      p ∈ (cleanupOldJobs m artifacts now).1.jobs := by
    intro p hp hret
    simp only [cleanupOldJobs]
    refine List.mem_filter.mpr ⟨hp, ?_⟩
    have hnotin : p.1 ∉ ((m.jobs.filter (fun q => shouldRetire now q.2)).map Prod.fst) := by
      intro hin
      obtain ⟨q, hq, hq1⟩ := List.mem_map.mp hin
      obtain ⟨hqmem, hqret⟩ := List.mem_filter.mp hq
      have := keys_nodup_inj m.jobs hnd q p hqmem hp hq1
      rw [this] at hqret
      rw [hret] at hqret
      exact Bool.false_ne_true hqret
    simpa using hnotin
  refine ⟨?_, hkept, ?_, rfl⟩
  · intro p hp hret
    have hin : p.1 ∈ ((m.jobs.filter (fun q => shouldRetire now q.2)).map Prod.fst) :=
      List.mem_map.mpr ⟨p, List.mem_filter.mpr ⟨hp, hret⟩, rfl⟩
    constructor <;>
    · refine lookup_filter_none _ _ _ ?_
      intro q _ hq1
      simp [hq1, hin]
  · intro p hp hnt
    refine hkept p hp ?_
    rw [shouldRetire, hterm p hp hnt]
    rfl

/-- A fresh processing job with no terminal timestamp. -/
def youngJob : Job :=
  { jobId := "k"
    filePath := "up/g.mp3"
    stems := 4
    status := JobStatus.processing
    createdAt := 7000
    startedAt := some 7001
    completedAt := none
    error := none
    resultPath := none
    progress := 3/10 }

/-- A manager holding one stale completed job and one young processing job. -/
def mixedManager : JobManager :=
  { jobs := [("j", staleJob), ("k", youngJob)]
    disk := [("j", staleJob), ("k", youngJob)] }

/-- Witness for the amended sweep theorem at a concrete manager. -/
theorem cleanupOldJobs_amended_witness :
    (mixedManager.jobs.map Prod.fst).Nodup ∧
    ((∀ p ∈ mixedManager.jobs, shouldRetire 7200 p.2 = true →
      (cleanupOldJobs mixedManager ["out/j.zip"] 7200).1.jobs.lookup p.1 = none ∧
      (cleanupOldJobs mixedManager ["out/j.zip"] 7200).1.disk.lookup p.1 = none) ∧
    (∀ p ∈ mixedManager.jobs, shouldRetire 7200 p.2 = false →
      p ∈ (cleanupOldJobs mixedManager ["out/j.zip"] 7200).1.jobs) ∧
    (∀ p ∈ mixedManager.jobs, isTerminal p.2.status = false →
      p ∈ (cleanupOldJobs mixedManager ["out/j.zip"] 7200).1.jobs) ∧
    (cleanupOldJobs mixedManager ["out/j.zip"] 7200).2.1 = ["out/j.zip"]) :=
  ⟨by decide, cleanupOldJobs_amended mixedManager ["out/j.zip"] 7200 (by decide) (by decide)⟩

theorem lookup_after_update (m : JobManager) (id : String) (job : Job)
    (hjob : m.jobs.lookup id = some job) (st : JobStatus) (p : Option Rat)
    (e rp : Option String) (now : Nat) :
    (updateJobStatus m id st p e rp now).1.jobs.lookup id =
      some (applyUpdate job st p e rp now) := by
  rw [updateJobStatus_found m id job hjob st p e rp now]
  exact lookup_storeInsert_self id (applyUpdate job st p e rp now) m.jobs

/-- C3 counterexample: when the engine fails with the message
`decode error`, the pipeline run ends with a failed job whose stored error
is the wrapped generic message, not the engine message verbatim. -/
theorem engine_failure_not_verbatim :
    (finalJobOfTrace (pipelineTrace
        ⟨EngineOutcome.failure "decode error", none, true⟩ defaultSettings
        "j" "up/f.mp3" 2 0 1 2 3 4) "j").map Job.status = some JobStatus.failed ∧
    (finalJobOfTrace (pipelineTrace
        ⟨EngineOutcome.failure "decode error", none, true⟩ defaultSettings
        "j" "up/f.mp3" 2 0 1 2 3 4) "j").map Job.error ≠ some (some "decode error") ∧
    (finalJobOfTrace (pipelineTrace
        ⟨EngineOutcome.failure "decode error", none, true⟩ defaultSettings
        "j" "up/f.mp3" 2 0 1 2 3 4) "j").map Job.error = some (some engineFailureMsg) := by
  refine ⟨?_, ?_, ?_⟩ <;> decide

/-- C3 (amended): for every job whose engine invocation fails generically —
whatever the engine message — the pipeline transitions the job to failed
with progress exactly 1, and the stored error is the wrapped fixed message
of the engine step (not the engine message verbatim). -/
theorem engine_failure_wrapped (s : Settings) (m : JobManager) (job : Job)
    (jobId filePath : String) (stems : Nat) (msg : String) (zf : Option String)
    (zv : Bool) (t1 t2 t3 t4 : Nat)
    (hjob : m.jobs.lookup jobId = some job)
    (hstems : stems = 2 ∨ stems = 4 ∨ stems = 5) :
    ∃ j, finalJobOfTrace (processSeparationJob m
        ⟨EngineOutcome.failure msg, zf, zv⟩ s jobId filePath stems t1 t2 t3 t4)
        jobId = some j ∧
      j.status = JobStatus.failed ∧
      j.progress = 1 ∧
      j.error = some engineFailureMsg := by
  have hrun : runSeparation s filePath stems (EngineOutcome.failure msg) =
      Except.error engineFailureMsg := by
    unfold runSeparation
    rw [if_neg (not_not_intro hstems)]
  have h1 := lookup_after_update m jobId job hjob
    JobStatus.processing (some (1/10)) none none t1
  have h2 := lookup_after_update _ jobId _ h1
    JobStatus.processing (some (3/10)) none none t2
  have h3 := lookup_after_update _ jobId _ h2
    JobStatus.failed (some 1) (some engineFailureMsg) none t3
  have htr : finalJobOfTrace (processSeparationJob m
      ⟨EngineOutcome.failure msg, zf, zv⟩ s jobId filePath stems t1 t2 t3 t4) jobId =
      (updateJobStatus
        (updateJobStatus (updateJobStatus m jobId JobStatus.processing (some (1/10))
          none none t1).1 jobId JobStatus.processing (some (3/10)) none none t2).1
        jobId JobStatus.failed (some 1) (some engineFailureMsg) none t3).1.jobs.lookup
        jobId := by
    simp only [processSeparationJob, hrun, finalJobOfTrace]
    simp
  refine ⟨applyUpdate (applyUpdate (applyUpdate job JobStatus.processing (some (1/10))
      none none t1) JobStatus.processing (some (3/10)) none none t2)
      JobStatus.failed (some 1) (some engineFailureMsg) none t3, ?_, ?_, ?_, ?_⟩
  · rw [htr]
    exact h3
  · exact applyUpdate_status _ JobStatus.failed _ _ _ _
  · exact (applyUpdate_terminal _ JobStatus.failed _ _ _ _ (Or.inr rfl)).2
  · exact applyUpdate_error_truthy _ JobStatus.failed _ _ _ _ (by decide)

/-- Witness for the wrapped-engine-failure theorem at a concrete run. -/
theorem engine_failure_wrapped_witness :
    ((createJob emptyManager "j" "up/f.mp3" 2 0).1.jobs.lookup "j" =
      some (Job.new "j" "up/f.mp3" 2 0)) ∧
    ∃ j, finalJobOfTrace (processSeparationJob (createJob emptyManager "j" "up/f.mp3" 2 0).1
        ⟨EngineOutcome.failure "decode error", none, true⟩ defaultSettings
        "j" "up/f.mp3" 2 1 2 3 4) "j" = some j ∧
      j.status = JobStatus.failed ∧
      j.progress = 1 ∧
      j.error = some engineFailureMsg :=
  ⟨by decide,
   engine_failure_wrapped defaultSettings (createJob emptyManager "j" "up/f.mp3" 2 0).1
     (Job.new "j" "up/f.mp3" 2 0) "j" "up/f.mp3" 2 "decode error" none true 1 2 3 4
     (by decide) (Or.inl rfl)⟩

/-- C1: the pipeline step sequence of the source holds no slot acquisition
or release at all — `settings.max_concurrent_separations` is read nowhere —
so the interleaving in which four dispatched pipeline tasks all sit inside
the engine call simultaneously is a valid schedule, and its engine occupancy
strictly exceeds the configured bound of the default settings. -/
theorem no_concurrency_limiter :
    PStep.acquireSlot ∉ pipelineSteps ∧
    PStep.releaseSlot ∉ pipelineSteps ∧
    validSchedule fourInsideSchedule 4 = true ∧
    engineOccupancy fourInsideSchedule = 4 ∧
    defaultSettings.maxConcurrentSeparations < engineOccupancy fourInsideSchedule := by
  refine ⟨?_, ?_, ?_, ?_, ?_⟩ <;> decide

theorem pyStrOptTruthy_append (a b : String) (h : a.data ≠ []) :
    pyStrOptTruthy (some (a ++ b)) = true := by
  simp only [pyStrOptTruthy, String.data_append]
  rcases ha : a.data with _ | ⟨x, t⟩
  · exact absurd ha h
  · rfl

theorem isTerminal_not_active (st : JobStatus) (h : isTerminal st = true) :
    st ≠ JobStatus.pending ∧ st ≠ JobStatus.processing := by
  cases st <;> simp_all [isTerminal]

theorem lastOnlyTerminal (l : List Job)
    (h : ∀ i ji, l[i]? = some ji → isTerminal ji.status = true → i = l.length - 1) :
    ∀ i k : Nat, i ≤ k → ∀ ji ∈ l[i]?, ∀ jk ∈ l[k]?,
      isTerminal ji.status = true →
      jk.status ≠ JobStatus.pending ∧ jk.status ≠ JobStatus.processing := by
  intro i k hik ji hji jk hjk hterm
  rw [Option.mem_def] at hji hjk
  have hi := h i ji hji hterm
  have hklt : k < l.length := by
    by_contra hge
    rw [List.getElem?_eq_none (by omega)] at hjk
    exact Option.noConfusion hjk
  have hilt : i < l.length := by
    by_contra hge
    rw [List.getElem?_eq_none (by omega)] at hji
    exact Option.noConfusion hji
  have hk : k = l.length - 1 := by omega
  have heq : jk = ji := by
    rw [hi] at hji
    rw [hk] at hjk
    rw [hji] at hjk
    exact (Option.some.injEq _ _ ▸ hjk).symm ▸ rfl
  rw [heq]
  exact isTerminal_not_active ji.status hterm

theorem nonterminal_step_inv (j : Job) (v : Rat) (now : Nat)
    (h : errPresent j = false ∧ resPresent j = false) :
    (applyUpdate j JobStatus.processing (some v) none none now).status =
      JobStatus.processing ∧
    errPresent (applyUpdate j JobStatus.processing (some v) none none now) = false ∧
    resPresent (applyUpdate j JobStatus.processing (some v) none none now) = false := by
  refine ⟨applyUpdate_status j JobStatus.processing (some v) none none now, ?_, ?_⟩
  · rw [errPresent, applyUpdate_error_not_truthy j JobStatus.processing (some v) none none
      now (by decide)]
    exact h.1
  · rw [resPresent, applyUpdate_result_none j JobStatus.processing (some v) none now]
    exact h.2

theorem fail_step_inv (j : Job) (msg : String) (now : Nat)
    (hmsg : pyStrOptTruthy (some msg) = true) (hres : resPresent j = false) :
    (applyUpdate j JobStatus.failed (some 1) (some msg) none now).status =
      JobStatus.failed ∧
    errPresent (applyUpdate j JobStatus.failed (some 1) (some msg) none now) = true ∧
    resPresent (applyUpdate j JobStatus.failed (some 1) (some msg) none now) = false := by
  refine ⟨applyUpdate_status j JobStatus.failed (some 1) (some msg) none now, ?_, ?_⟩
  · rw [errPresent, applyUpdate_error_truthy j JobStatus.failed (some 1) (some msg) none
      now hmsg]
    exact hmsg
  · rw [resPresent, applyUpdate_result_none j JobStatus.failed (some 1) (some msg) now]
    exact hres

theorem complete_step_inv (j : Job) (rp : String) (now : Nat)
    (herr : errPresent j = false) :
    (applyUpdate j JobStatus.completed (some 1) none (some rp) now).status =
      JobStatus.completed ∧
    errPresent (applyUpdate j JobStatus.completed (some 1) none (some rp) now) = false ∧
    resPresent (applyUpdate j JobStatus.completed (some 1) none (some rp) now) = true := by
  refine ⟨applyUpdate_status j JobStatus.completed (some 1) none (some rp) now, ?_, ?_⟩
  · rw [errPresent, applyUpdate_error_not_truthy j JobStatus.completed (some 1) none
      (some rp) now (by decide)]
    exact herr
  · rw [resPresent, applyUpdate_result_some j JobStatus.completed (some 1) none rp now]
    rfl

theorem createJob_lookup (jobId filePath : String) (stems t0 : Nat) :
    (createJob emptyManager jobId filePath stems t0).1.jobs.lookup jobId =
      some (Job.new jobId filePath stems t0) := by
  simp only [createJob]
  exact lookup_storeInsert_self jobId (Job.new jobId filePath stems t0) emptyManager.jobs

theorem pipeline_jobs_error (env : PipelineEnv) (s : Settings) (jobId filePath : String)
    (stems : Nat) (t0 t1 t2 t3 t4 : Nat) (msg : String)
    (hrun : runSeparation s filePath stems env.engine = Except.error msg) :
    (pipelineTrace env s jobId filePath stems t0 t1 t2 t3 t4).filterMap
      (fun mg => mg.jobs.lookup jobId) =
    [Job.new jobId filePath stems t0,
     applyUpdate (Job.new jobId filePath stems t0)
       JobStatus.processing (some (1/10)) none none t1,
     applyUpdate (applyUpdate (Job.new jobId filePath stems t0)
       JobStatus.processing (some (1/10)) none none t1)
       JobStatus.processing (some (3/10)) none none t2,
     applyUpdate (applyUpdate (applyUpdate (Job.new jobId filePath stems t0)
       JobStatus.processing (some (1/10)) none none t1)
       JobStatus.processing (some (3/10)) none none t2)
       JobStatus.failed (some 1) (some msg) none t3] := by
  have e0 := createJob_lookup jobId filePath stems t0
  have e1 := lookup_after_update _ jobId _ e0
    JobStatus.processing (some (1/10)) none none t1
  have e2 := lookup_after_update _ jobId _ e1
    JobStatus.processing (some (3/10)) none none t2
  have e3 := lookup_after_update _ jobId _ e2
    JobStatus.failed (some 1) (some msg) none t3
  simp only [pipelineTrace, processSeparationJob, hrun]
  simp only [List.filterMap_cons, e0, e1, e2, e3, List.filterMap_nil]

theorem pipeline_jobs_zipfail (env : PipelineEnv) (s : Settings) (jobId filePath : String)
    (stems : Nat) (t0 t1 t2 t3 t4 : Nat) (dir detail : String)
    (hrun : runSeparation s filePath stems env.engine = Except.ok dir)
    (hzf : env.zipFail = some detail) :
    (pipelineTrace env s jobId filePath stems t0 t1 t2 t3 t4).filterMap
      (fun mg => mg.jobs.lookup jobId) =
    [Job.new jobId filePath stems t0,
     applyUpdate (Job.new jobId filePath stems t0)
       JobStatus.processing (some (1/10)) none none t1,
     applyUpdate (applyUpdate (Job.new jobId filePath stems t0)
       JobStatus.processing (some (1/10)) none none t1)
       JobStatus.processing (some (3/10)) none none t2,
     applyUpdate (applyUpdate (applyUpdate (Job.new jobId filePath stems t0)
       JobStatus.processing (some (1/10)) none none t1)
       JobStatus.processing (some (3/10)) none none t2)
       JobStatus.processing (some (7/10)) none none t3,
     applyUpdate (applyUpdate (applyUpdate (applyUpdate (Job.new jobId filePath stems t0)
       JobStatus.processing (some (1/10)) none none t1)
       JobStatus.processing (some (3/10)) none none t2)
       JobStatus.processing (some (7/10)) none none t3)
       JobStatus.failed (some 1) (some ("500: " ++ detail)) none t4] := by
  have e0 := createJob_lookup jobId filePath stems t0
  have e1 := lookup_after_update _ jobId _ e0
    JobStatus.processing (some (1/10)) none none t1
  have e2 := lookup_after_update _ jobId _ e1
    JobStatus.processing (some (3/10)) none none t2
  have e3 := lookup_after_update _ jobId _ e2
    JobStatus.processing (some (7/10)) none none t3
  have e4 := lookup_after_update _ jobId _ e3
    JobStatus.failed (some 1) (some ("500: " ++ detail)) none t4
  simp only [pipelineTrace, processSeparationJob, hrun, hzf]
  simp only [List.filterMap_cons, e0, e1, e2, e3, e4, List.filterMap_nil]

theorem pipeline_jobs_complete (env : PipelineEnv) (s : Settings) (jobId filePath : String)
    (stems : Nat) (t0 t1 t2 t3 t4 : Nat) (dir : String)
    (hrun : runSeparation s filePath stems env.engine = Except.ok dir)
    (hzf : env.zipFail = none) (hzv : env.zipVerifyOk = true) :
    (pipelineTrace env s jobId filePath stems t0 t1 t2 t3 t4).filterMap
      (fun mg => mg.jobs.lookup jobId) =
    [Job.new jobId filePath stems t0,
     applyUpdate (Job.new jobId filePath stems t0)
       JobStatus.processing (some (1/10)) none none t1,
     applyUpdate (applyUpdate (Job.new jobId filePath stems t0)
       JobStatus.processing (some (1/10)) none none t1)
       JobStatus.processing (some (3/10)) none none t2,
     applyUpdate (applyUpdate (applyUpdate (Job.new jobId filePath stems t0)
       JobStatus.processing (some (1/10)) none none t1)
       JobStatus.processing (some (3/10)) none none t2)
       JobStatus.processing (some (7/10)) none none t3,
     applyUpdate (applyUpdate (applyUpdate (applyUpdate (Job.new jobId filePath stems t0)
       JobStatus.processing (some (1/10)) none none t1)
       JobStatus.processing (some (3/10)) none none t2)
       JobStatus.processing (some (7/10)) none none t3)
       JobStatus.completed (some 1) none (some (s.outputDir ++ "/" ++ jobId ++ ".zip")) t4] := by
  have e0 := createJob_lookup jobId filePath stems t0
  have e1 := lookup_after_update _ jobId _ e0
    JobStatus.processing (some (1/10)) none none t1
  have e2 := lookup_after_update _ jobId _ e1
    JobStatus.processing (some (3/10)) none none t2
  have e3 := lookup_after_update _ jobId _ e2
    JobStatus.processing (some (7/10)) none none t3
  have e4 := lookup_after_update _ jobId _ e3
    JobStatus.completed (some 1) none (some (s.outputDir ++ "/" ++ jobId ++ ".zip")) t4
  simp only [pipelineTrace, processSeparationJob, hrun, hzf, hzv, reduceIte]
  simp only [List.filterMap_cons, e0, e1, e2, e3, e4, List.filterMap_nil]

theorem pipeline_jobs_badzip (env : PipelineEnv) (s : Settings) (jobId filePath : String)
    (stems : Nat) (t0 t1 t2 t3 t4 : Nat) (dir : String)
    (hrun : runSeparation s filePath stems env.engine = Except.ok dir)
    (hzf : env.zipFail = none) (hzv : env.zipVerifyOk = false) :
    (pipelineTrace env s jobId filePath stems t0 t1 t2 t3 t4).filterMap
      (fun mg => mg.jobs.lookup jobId) =
    [Job.new jobId filePath stems t0,
     applyUpdate (Job.new jobId filePath stems t0)
       JobStatus.processing (some (1/10)) none none t1,
     applyUpdate (applyUpdate (Job.new jobId filePath stems t0)
       JobStatus.processing (some (1/10)) none none t1)
       JobStatus.processing (some (3/10)) none none t2,
     applyUpdate (applyUpdate (applyUpdate (Job.new jobId filePath stems t0)
       JobStatus.processing (some (1/10)) none none t1)
       JobStatus.processing (some (3/10)) none none t2)
       JobStatus.processing (some (7/10)) none none t3,
     applyUpdate (applyUpdate (applyUpdate (applyUpdate (Job.new jobId filePath stems t0)
       JobStatus.processing (some (1/10)) none none t1)
       JobStatus.processing (some (3/10)) none none t2)
       JobStatus.processing (some (7/10)) none none t3)
       JobStatus.failed (some 1) (some "Zip file was not created or is empty") none t4] := by
  have e0 := createJob_lookup jobId filePath stems t0
  have e1 := lookup_after_update _ jobId _ e0
    JobStatus.processing (some (1/10)) none none t1
  have e2 := lookup_after_update _ jobId _ e1
    JobStatus.processing (some (3/10)) none none t2
  have e3 := lookup_after_update _ jobId _ e2
    JobStatus.processing (some (7/10)) none none t3
  have e4 := lookup_after_update _ jobId _ e3
    JobStatus.failed (some 1) (some "Zip file was not created or is empty") none t4
  simp only [pipelineTrace, processSeparationJob, hrun, hzf, hzv, Bool.false_eq_true,
    if_false, reduceIte]
  simp only [List.filterMap_cons, e0, e1, e2, e3, e4, List.filterMap_nil]

theorem runSeparation_error_nonempty (s : Settings) (filePath : String) (stems : Nat)
    (eng : EngineOutcome) (msg : String)
    (h : runSeparation s filePath stems eng = Except.error msg) :
    pyStrOptTruthy (some msg) = true := by
  unfold runSeparation at h
  split_ifs at h with hstems
  · cases eng with
    | valueErr m =>
      injection h with h2
      subst h2
      exact pyStrOptTruthy_append "400: Invalid separation configuration: " _ (by decide)
    | failure m =>
      injection h with h2
      subst h2
      decide
    | success outDirExists =>
      cases outDirExists
      · injection h with h2
        subst h2
        decide
      · exact Except.noConfusion h
  · injection h with h2
    subst h2
    exact pyStrOptTruthy_append "400: Invalid stems value: " _ (by decide)

/-- C5: along every run of a job driven through the pipeline — creation
followed by the transition sequence of the success path or of any failure
branch — a terminal state carries exactly one of an error and a result path,
a non-terminal state carries neither, and once a state is terminal no later
state in the run is pending or processing. -/
theorem Job_new_status (jobId filePath : String) (stems now : Nat) :
    (Job.new jobId filePath stems now).status = JobStatus.pending := rfl

theorem pipeline_trace_invariant (env : PipelineEnv) (s : Settings)
    (jobId filePath : String) (stems : Nat) (t0 t1 t2 t3 t4 : Nat) :
    (∀ j ∈ (pipelineTrace env s jobId filePath stems t0 t1 t2 t3 t4).filterMap
        (fun mg => mg.jobs.lookup jobId), jobInv j) ∧
    (∀ i k : Nat, i ≤ k →
      ∀ ji ∈ ((pipelineTrace env s jobId filePath stems t0 t1 t2 t3 t4).filterMap
        (fun mg => mg.jobs.lookup jobId))[i]?,
      ∀ jk ∈ ((pipelineTrace env s jobId filePath stems t0 t1 t2 t3 t4).filterMap
        (fun mg => mg.jobs.lookup jobId))[k]?,
      isTerminal ji.status = true →
        jk.status ≠ JobStatus.pending ∧ jk.status ≠ JobStatus.processing) := by
  have h0 : errPresent (Job.new jobId filePath stems t0) = false ∧
      resPresent (Job.new jobId filePath stems t0) = false := ⟨rfl, rfl⟩
  have h1 := nonterminal_step_inv (Job.new jobId filePath stems t0) (1/10) t1 h0
  have h2 := nonterminal_step_inv _ (3/10) t2 ⟨h1.2.1, h1.2.2⟩
  cases hrun : runSeparation s filePath stems env.engine with
  | error msg =>
    have hmsg := runSeparation_error_nonempty s filePath stems env.engine msg hrun
    have hJ := pipeline_jobs_error env s jobId filePath stems t0 t1 t2 t3 t4 msg hrun
    rw [hJ]
    have hf := fail_step_inv _ msg t3 hmsg h2.2.2
    constructor
    · intro j hj
      simp only [List.mem_cons, List.not_mem_nil, or_false] at hj
      rcases hj with rfl | rfl | rfl | rfl
      · rw [jobInv, Job_new_status, if_neg (by decide)]
        exact ⟨rfl, rfl⟩
      · rw [jobInv, h1.1, if_neg (by decide)]
        exact ⟨h1.2.1, h1.2.2⟩
      · rw [jobInv, h2.1, if_neg (by decide)]
        exact ⟨h2.2.1, h2.2.2⟩
      · rw [jobInv, hf.1, if_pos (by decide)]
        exact Or.inl ⟨hf.2.1, hf.2.2⟩
    · apply lastOnlyTerminal
      intro i ji hji hterm
      rcases i with _ | _ | _ | _ | i <;>
        simp only [List.getElem?_cons_zero, List.getElem?_cons_succ, List.getElem?_nil,
          Option.some.injEq] at hji
      · subst hji
        rw [Job_new_status] at hterm
        exact absurd hterm (by decide)
      · subst hji
        rw [h1.1] at hterm
        exact absurd hterm (by decide)
      · subst hji
        rw [h2.1] at hterm
        exact absurd hterm (by decide)
      · rfl
      · exact Option.noConfusion hji
  | ok dir =>
    have h3 := nonterminal_step_inv _ (7/10) t3 ⟨h2.2.1, h2.2.2⟩
    cases hzf : env.zipFail with
    | some detail =>
      have hJ := pipeline_jobs_zipfail env s jobId filePath stems t0 t1 t2 t3 t4 dir
        detail hrun hzf
      rw [hJ]
      have hf := fail_step_inv _ ("500: " ++ detail) t4
        (pyStrOptTruthy_append "500: " detail (by decide)) h3.2.2
      constructor
      · intro j hj
        simp only [List.mem_cons, List.not_mem_nil, or_false] at hj
        rcases hj with rfl | rfl | rfl | rfl | rfl
        · rw [jobInv, Job_new_status, if_neg (by decide)]
          exact ⟨rfl, rfl⟩
        · rw [jobInv, h1.1, if_neg (by decide)]
          exact ⟨h1.2.1, h1.2.2⟩
        · rw [jobInv, h2.1, if_neg (by decide)]
          exact ⟨h2.2.1, h2.2.2⟩
        · rw [jobInv, h3.1, if_neg (by decide)]
          exact ⟨h3.2.1, h3.2.2⟩
        · rw [jobInv, hf.1, if_pos (by decide)]
          exact Or.inl ⟨hf.2.1, hf.2.2⟩
      · apply lastOnlyTerminal
        intro i ji hji hterm
        rcases i with _ | _ | _ | _ | _ | i <;>
          simp only [List.getElem?_cons_zero, List.getElem?_cons_succ, List.getElem?_nil,
            Option.some.injEq] at hji
        · subst hji
          rw [Job_new_status] at hterm
          exact absurd hterm (by decide)
        · subst hji
          rw [h1.1] at hterm
          exact absurd hterm (by decide)
        · subst hji
          rw [h2.1] at hterm
          exact absurd hterm (by decide)
        · subst hji
          rw [h3.1] at hterm
          exact absurd hterm (by decide)
        · rfl
        · exact Option.noConfusion hji
    | none =>
      cases hzv : env.zipVerifyOk with
      | true =>
        have hJ := pipeline_jobs_complete env s jobId filePath stems t0 t1 t2 t3 t4 dir
          hrun hzf hzv
        rw [hJ]
        have hc := complete_step_inv _ (s.outputDir ++ "/" ++ jobId ++ ".zip") t4 h3.2.1
        constructor
        · intro j hj
          simp only [List.mem_cons, List.not_mem_nil, or_false] at hj
          rcases hj with rfl | rfl | rfl | rfl | rfl
          · rw [jobInv, Job_new_status, if_neg (by decide)]
            exact ⟨rfl, rfl⟩
          · rw [jobInv, h1.1, if_neg (by decide)]
            exact ⟨h1.2.1, h1.2.2⟩
          · rw [jobInv, h2.1, if_neg (by decide)]
            exact ⟨h2.2.1, h2.2.2⟩
          · rw [jobInv, h3.1, if_neg (by decide)]
            exact ⟨h3.2.1, h3.2.2⟩
          · rw [jobInv, hc.1, if_pos (by decide)]
            exact Or.inr ⟨hc.2.1, hc.2.2⟩
        · apply lastOnlyTerminal
          intro i ji hji hterm
          rcases i with _ | _ | _ | _ | _ | i <;>
            simp only [List.getElem?_cons_zero, List.getElem?_cons_succ, List.getElem?_nil,
              Option.some.injEq] at hji
          · subst hji
            rw [Job_new_status] at hterm
            exact absurd hterm (by decide)
          · subst hji
            rw [h1.1] at hterm
            exact absurd hterm (by decide)
          · subst hji
            rw [h2.1] at hterm
            exact absurd hterm (by decide)
          · subst hji
            rw [h3.1] at hterm
            exact absurd hterm (by decide)
          · rfl
          · exact Option.noConfusion hji
      | false =>
        have hJ := pipeline_jobs_badzip env s jobId filePath stems t0 t1 t2 t3 t4 dir
          hrun hzf hzv
        rw [hJ]
        have hf := fail_step_inv _ "Zip file was not created or is empty" t4
          (by decide) h3.2.2
        constructor
        · intro j hj
          simp only [List.mem_cons, List.not_mem_nil, or_false] at hj
          rcases hj with rfl | rfl | rfl | rfl | rfl
          · rw [jobInv, Job_new_status, if_neg (by decide)]
            exact ⟨rfl, rfl⟩
          · rw [jobInv, h1.1, if_neg (by decide)]
            exact ⟨h1.2.1, h1.2.2⟩
          · rw [jobInv, h2.1, if_neg (by decide)]
            exact ⟨h2.2.1, h2.2.2⟩
          · rw [jobInv, h3.1, if_neg (by decide)]
            exact ⟨h3.2.1, h3.2.2⟩
          · rw [jobInv, hf.1, if_pos (by decide)]
            exact Or.inl ⟨hf.2.1, hf.2.2⟩
        · apply lastOnlyTerminal
          intro i ji hji hterm
          rcases i with _ | _ | _ | _ | _ | i <;>
            simp only [List.getElem?_cons_zero, List.getElem?_cons_succ, List.getElem?_nil,
              Option.some.injEq] at hji
          · subst hji
            rw [Job_new_status] at hterm
            exact absurd hterm (by decide)
          · subst hji
            rw [h1.1] at hterm
            exact absurd hterm (by decide)
          · subst hji
            rw [h2.1] at hterm
            exact absurd hterm (by decide)
          · subst hji
            rw [h3.1] at hterm
            exact absurd hterm (by decide)
          · rfl
          · exact Option.noConfusion hji

/-- Witness for the transition contract at a concrete manager and update. -/
theorem updateJobStatus_contract_witness :
    (staleManager.jobs.lookup "j" = some staleJob) ∧
    ((updateJobStatus staleManager "j" JobStatus.processing (some 2) none none 9).2 = true ∧
      ∃ j, (updateJobStatus staleManager "j" JobStatus.processing (some 2) none none 9).1.jobs.lookup "j" = some j ∧
        (updateJobStatus staleManager "j" JobStatus.processing (some 2) none none 9).1.disk.lookup "j" = some j ∧
        j = applyUpdate staleJob JobStatus.processing (some 2) none none 9 ∧
        (∀ v, (some 2 : Option Rat) = some v → 0 ≤ j.progress ∧ j.progress ≤ 1) ∧
        (∀ v, (some 2 : Option Rat) = some v →
          ¬ (JobStatus.processing = JobStatus.completed ∨
             JobStatus.processing = JobStatus.failed) → j.progress = clampProgress v) ∧
        ((JobStatus.processing = JobStatus.completed ∨
          JobStatus.processing = JobStatus.failed) → j.completedAt = some 9 ∧ j.progress = 1) ∧
        (JobStatus.processing = JobStatus.processing → pyTimeTruthy staleJob.startedAt = false →
          j.startedAt = some 9) ∧
        (pyTimeTruthy staleJob.startedAt = true → j.startedAt = staleJob.startedAt) ∧
        (JobStatus.processing ≠ JobStatus.processing → j.startedAt = staleJob.startedAt)) :=
  ⟨by decide,
   (updateJobStatus_contract staleManager "j" JobStatus.processing (some 2) none none 9).2
     staleJob (by decide)⟩

/-- A manager holding one freshly created pending job. -/
def freshManager : JobManager := (createJob emptyManager "w" "up/w.mp3" 2 0).1

/-- Witness for the truthiness behavior of the transition operation at a
failed transition carrying an empty error message. -/
theorem updateJobStatus_truthiness_witness :
    (freshManager.jobs.lookup "w" = some (Job.new "w" "up/w.mp3" 2 0)) ∧
    ∃ j, (updateJobStatus freshManager "w" JobStatus.failed (some 1) (some "") none 5).1.jobs.lookup "w" = some j ∧
      j = applyUpdate (Job.new "w" "up/w.mp3" 2 0) JobStatus.failed (some 1) (some "") none 5 ∧
      (((some "" : Option String) = none ∨ (some "" : Option String) = some "") →
        j.error = (Job.new "w" "up/w.mp3" 2 0).error) ∧
      ((none : Option String) = none → j.resultPath = (Job.new "w" "up/w.mp3" 2 0).resultPath) ∧
      ((Job.new "w" "up/w.mp3" 2 0).error ≠ none → j.error ≠ none) ∧
      ((Job.new "w" "up/w.mp3" 2 0).resultPath ≠ none → j.resultPath ≠ none) ∧
      (JobStatus.failed = JobStatus.failed → (some "" : Option String) = some "" →
        (Job.new "w" "up/w.mp3" 2 0).error = none →
        j.status = JobStatus.failed ∧ j.error = none) :=
  ⟨by decide,
   updateJobStatus_truthiness freshManager "w" JobStatus.failed (some 1) (some "") none 5
     (Job.new "w" "up/w.mp3" 2 0) (by decide)⟩

/-- A failed job record with an error and no result path. -/
def failedJob : Job :=
  { jobId := "f"
    filePath := "up/h.mp3"
    stems := 2
    status := JobStatus.failed
    createdAt := 1
    startedAt := some 2
    completedAt := some 3
    error := some "boom"
    resultPath := none
    progress := 1 }

/-- A manager holding only the failed job. -/
def failedManager : JobManager := { jobs := [("f", failedJob)], disk := [("f", failedJob)] }

/-- Witness for the result-endpoint gate at a failed job: even the terminal
failed status yields the 202 not-ready body. -/
theorem getJobResult_gate_witness :
    (failedManager.jobs.lookup "f" = some failedJob) ∧
    ((failedJob.status ≠ JobStatus.completed →
      getJobResult failedManager [] "f" =
        ResultResponse.notReady "f" failedJob.status stillProcessingMsg) ∧
    (∀ p sz, getJobResult failedManager [] "f" = ResultResponse.fileOk p sz →
      failedJob.status = JobStatus.completed) ∧
    (getJobResult failedManager [] "f" = ResultResponse.resultMissing →
      failedJob.status = JobStatus.completed)) :=
  ⟨by decide, getJobResult_gate failedManager [] "f" failedJob (by decide)⟩

/-- Witness for the pipeline invariant theorem at a concrete successful run. -/
theorem pipeline_trace_invariant_witness :
    (∀ j ∈ (pipelineTrace ⟨EngineOutcome.success true, none, true⟩ defaultSettings
        "j" "up/f.mp3" 2 0 1 2 3 4).filterMap (fun mg => mg.jobs.lookup "j"), jobInv j) ∧
    (∀ i k : Nat, i ≤ k →
      ∀ ji ∈ ((pipelineTrace ⟨EngineOutcome.success true, none, true⟩ defaultSettings
        "j" "up/f.mp3" 2 0 1 2 3 4).filterMap (fun mg => mg.jobs.lookup "j"))[i]?,
      ∀ jk ∈ ((pipelineTrace ⟨EngineOutcome.success true, none, true⟩ defaultSettings
        "j" "up/f.mp3" 2 0 1 2 3 4).filterMap (fun mg => mg.jobs.lookup "j"))[k]?,
      isTerminal ji.status = true →
        jk.status ≠ JobStatus.pending ∧ jk.status ≠ JobStatus.processing) :=
  pipeline_trace_invariant ⟨EngineOutcome.success true, none, true⟩ defaultSettings
    "j" "up/f.mp3" 2 0 1 2 3 4

/-- Witness instantiating the filename-check characterization at a name
holding a rejected character. -/
theorem validateFile_filename_checks_witness :
    (validateFile defaultSettings (some "bad<name.mp3") none =
        Except.error FileCheckError.missingFilename ∨
     validateFile defaultSettings (some "bad<name.mp3") none =
        Except.error FileCheckError.filenameTooLong ∨
     validateFile defaultSettings (some "bad<name.mp3") none =
        Except.error FileCheckError.invalidChars)
    ↔ ((some "bad<name.mp3" : Option String) = none ∨
       ∃ f, (some "bad<name.mp3" : Option String) = some f ∧
        (f = "" ∨ 255 < f.length ∨ ∃ c ∈ f.data, c ∈ invalidFilenameChars)) :=
  validateFile_filename_checks defaultSettings (some "bad<name.mp3") none

end StemSplitter
